import Mathlib

/-!
Verification of the SQL-to-Go converter (`converter.go`).

Go strings are modelled as `List Char` (one entry per rune; the inputs the
claims exercise are ASCII, where Go's byte indices coincide with rune
indices).  Go's partial operations are modelled with `Option`: a result of
`none` at the outer level of `removeCommentsAndDefaults`,
`parseColumnDefinition`, `parseColumns` and `ParseSQL` represents a Go
runtime panic (slice bounds out of range); `goRepeat` likewise returns
`none` exactly when `strings.Repeat` would panic on a negative count.
Fallible parsing returns `Except ParseErr _`, with one constructor per
error message of the source.

The four pre-compiled regular expressions of `converter.go` are embedded as
explicit scanners with Go's leftmost-first (backtracking) match semantics.
Every repetition in those patterns is over a single character class, and in
each case only the maximal (greedy) run can let the rest of the pattern
succeed, except for the optional `IF NOT EXISTS` group of the table-name
pattern, where the two alternatives (group present / group absent) are
tried in that order, exactly as a backtracking engine does.
-/

deriving instance DecidableEq for Except

namespace SqlToGo

/-- Character data of a string literal (Go string as a rune list). -/
def sd (s : String) : List Char := s.data

/-- The single-quote character `'` (code 39). -/
def sq : Char := Char.ofNat 39

/-- The backtick character (code 96). -/
def bq : Char := Char.ofNat 96

/-- Go `unicode.IsSpace` on the Latin-1 range (TrimSpace / Fields). -/
def isGoSpace (c : Char) : Bool :=
  decide (c.toNat = 32 ∨ (9 ≤ c.toNat ∧ c.toNat ≤ 13) ∨ c.toNat = 133 ∨ c.toNat = 160)

/-- The character class `\s` of Go's `regexp` package: `[\t\n\f\r ]`. -/
def isRegexSpace (c : Char) : Bool :=
  decide (c.toNat = 32 ∨ c.toNat = 9 ∨ c.toNat = 10 ∨ c.toNat = 12 ∨ c.toNat = 13)

/-- The word-character class `[0-9A-Za-z_]` (used by `\b` and by the
table-name identifier class `[a-zA-Z0-9_]`). -/
def isWordChar (c : Char) : Bool :=
  decide ((48 ≤ c.toNat ∧ c.toNat ≤ 57) ∨ (65 ≤ c.toNat ∧ c.toNat ≤ 90) ∨
    (97 ≤ c.toNat ∧ c.toNat ≤ 122) ∨ c.toNat = 95)

/-- The quote class of the table-name pattern: backtick, `"` or `'`. -/
def isQuoteChar (c : Char) : Bool := c = bq || c = '"' || c = sq

/-- `r >= 'A' && r <= 'Z'` of the source. -/
def isUpperAZ (c : Char) : Bool := decide (65 ≤ c.toNat ∧ c.toNat ≤ 90)

/-- `r >= 'a' && r <= 'z'` of the source. -/
def isLowerAZ (c : Char) : Bool := decide (97 ≤ c.toNat ∧ c.toNat ≤ 122)

/-- ASCII action of Go's `strings.ToUpper` on one rune. -/
def upperChar (c : Char) : Char :=
  if 97 ≤ c.toNat ∧ c.toNat ≤ 122 then Char.ofNat (c.toNat - 32) else c

/-- ASCII action of Go's `strings.ToLower` on one rune. -/
def lowerChar (c : Char) : Char :=
  if 65 ≤ c.toNat ∧ c.toNat ≤ 90 then Char.ofNat (c.toNat + 32) else c

/-- Go `strings.ToUpper`. -/
def goToUpper (s : List Char) : List Char := s.map upperChar

/-- Go `strings.TrimSpace`. -/
def trimSpace (s : List Char) : List Char :=
  ((s.dropWhile isGoSpace).reverse.dropWhile isGoSpace).reverse

/-- Length of the maximal prefix run satisfying `p`. -/
def countWhile (p : Char → Bool) : List Char → Nat
  | [] => 0
  | c :: rest => if p c then countWhile p rest + 1 else 0

/-- Go `strings.Index s sub` (`none` for -1). -/
def goIndexSub : List Char → List Char → Option Nat
  | [], sub => if sub.isPrefixOf ([] : List Char) then some 0 else none
  | c :: t, sub =>
    if sub.isPrefixOf (c :: t) then some 0
    else
      match goIndexSub t sub with
      | some n => some (n + 1)
      | none => none

/-- Go `strings.Contains`. -/
def containsStr (s sub : List Char) : Bool := (goIndexSub s sub).isSome

/-- Helper of `goFields`: `cur` is the current word, reversed. -/
def goFieldsAux (cur : List Char) : List Char → List (List Char)
  | [] => if cur.isEmpty then [] else [cur.reverse]
  | c :: rest =>
    if isGoSpace c then
      if cur.isEmpty then goFieldsAux [] rest else cur.reverse :: goFieldsAux [] rest
    else goFieldsAux (c :: cur) rest

/-- Go `strings.Fields`. -/
def goFields (s : List Char) : List (List Char) := goFieldsAux [] s

/-- Go `strings.Join parts " "`. -/
def goJoinSpace : List (List Char) → List Char
  | [] => []
  | [w] => w
  | w :: rest => w ++ ' ' :: goJoinSpace rest

/-- Go `strings.Repeat (string c) count`: panics (`none`) on a negative count. -/
def goRepeat (c : Char) (count : Int) : Option (List Char) :=
  if count < 0 then none else some (List.replicate count.toNat c)

/-! ### normalizeWhitespace (converter.go:317-322) -/

/-- Helper of `normalizeWhitespace`: `inRun` is true while inside a
whitespace run whose replacement space has already been emitted. -/
def normalizeWSAux : Bool → List Char → List Char
  | _, [] => []
  | inRun, c :: rest =>
    if isRegexSpace c then
      if inRun then normalizeWSAux true rest else ' ' :: normalizeWSAux true rest
    else c :: normalizeWSAux false rest

/-- `normalizeWhitespace`: `regexp.MustCompile(\s+).ReplaceAllString(s, " ")`,
i.e. every maximal run of `\s` characters becomes a single space. -/
def normalizeWhitespace (s : List Char) : List Char := normalizeWSAux false s

/-! ### tableNameRegex (converter.go:12)

`(?i)CREATE\s+TABLE\s+(?:IF\s+NOT\s+EXISTS\s+)?[`"']?([a-zA-Z0-9_]+)[`"']?\s*\(`
-/

/-- Match `pat` (given in upper case) case-insensitively as a prefix,
returning the remainder. -/
def matchCI : List Char → List Char → Option (List Char)
  | [], l => some l
  | _ :: _, [] => none
  | p :: ps, c :: cs => if upperChar c = p then matchCI ps cs else none

/-- `\s+`: one or more regex spaces, maximal munch (the continuations in
the table-name pattern never start with a space, so only the maximal run
can succeed). -/
def wsPlus (l : List Char) : Option (List Char) :=
  let n := countWhile isRegexSpace l
  if n = 0 then none else some (l.drop n)

/-- The optional group `IF\s+NOT\s+EXISTS\s+`. -/
def matchIne (l : List Char) : Option (List Char) :=
  (matchCI (sd "IF") l).bind fun a =>
  (wsPlus a).bind fun b =>
  (matchCI (sd "NOT") b).bind fun c =>
  (wsPlus c).bind fun d =>
  (matchCI (sd "EXISTS") d).bind fun e =>
  wsPlus e

/-- Greedy consumption of an optional single quote character (no
backtracking needed: when a quote is present, the skip alternative leaves
the quote character itself next, which no later pattern element can
match). -/
def tnQuoteSkip (r : List Char) : List Char :=
  match r with
  | c :: rest => if isQuoteChar c then rest else r
  | [] => r

/-- The tail ``([a-zA-Z0-9_]+)[`"']?\s*\(`` of the table-name pattern
after the optional opening quote; returns the capture of group 1.  The
greedy identifier needs no backtracking: a shorter identifier run leaves
an identifier character next, which neither the quote class, `\s` nor
`(` can match. -/
def tnTail (l1 : List Char) : Option (List Char) :=
  let n := countWhile isWordChar l1
  if n = 0 then none
  else
    let ident := l1.take n
    let r1 := tnQuoteSkip (l1.drop n)
    let r2 := r1.drop (countWhile isRegexSpace r1)
    match r2 with
    | '(' :: _ => some ident
    | _ => none

/-- The table-name pattern tail with the optional opening quote handled:
if the first character is a quote it is consumed greedily (as analysed
above, the no-consume alternative can never succeed when it is present). -/
def tnName (l : List Char) : Option (List Char) :=
  match l with
  | [] => tnTail []
  | c :: rest => if isQuoteChar c then tnTail rest else tnTail (c :: rest)

/-- Attempt the whole table-name pattern at one start position.  The
optional `IF NOT EXISTS` group is tried present-first (greedy `?`), with
fallback to the group-absent alternative, as a backtracking engine does. -/
def matchTableNameAt (l : List Char) : Option (List Char) :=
  (matchCI (sd "CREATE") l).bind fun a =>
  (wsPlus a).bind fun b =>
  (matchCI (sd "TABLE") b).bind fun c =>
  (wsPlus c).bind fun d =>
    match matchIne d with
    | some e =>
      match tnName e with
      | some ident => some ident
      | none => tnName d
    | none => tnName d

/-- `tableNameRegex.FindStringSubmatch`: leftmost match, group 1. -/
def tableNameFind : List Char → Option (List Char)
  | [] => none
  | c :: rest =>
    match matchTableNameAt (c :: rest) with
    | some ident => some ident
    | none => tableNameFind rest

/-! ### columnBlockRegex (converter.go:13)

`\(([\s\S]+)\)\s*(?:ENGINE|DEFAULT|AUTO_INCREMENT|COMMENT|;|$)` (case-sensitive)
-/

/-- The case-sensitive keyword alternation after the closing parenthesis. -/
def cbKeywordList : List (List Char) :=
  [sd "ENGINE", sd "DEFAULT", sd "AUTO_INCREMENT", sd "COMMENT", sd ";"]

/-- `\s*(?:ENGINE|DEFAULT|AUTO_INCREMENT|COMMENT|;|$)` holds of `t`:
after the maximal space run, the input ends or a keyword follows (the
keywords start with non-space characters, so only the maximal run can
succeed). -/
def cbTailOK (t : List Char) : Bool :=
  let t2 := t.drop (countWhile isRegexSpace t)
  t2.isEmpty || cbKeywordList.any (fun k => k.isPrefixOf t2)

/-- Greedy `[\s\S]+` body: among the splits `acc.reverse ++ ')' :: rest`
of the scanned text, prefer the rightmost `)` whose tail satisfies
`cbTailOK`; the body must be non-empty (`+`). -/
def cbBody (acc : List Char) : List Char → Option (List Char)
  | [] => none
  | c :: rest =>
    match cbBody (c :: acc) rest with
    | some b => some b
    | none =>
      if c = ')' && cbTailOK rest && !acc.isEmpty then some acc.reverse else none

/-- `columnBlockRegex.FindStringSubmatch`: leftmost start (which must be a
`(`), group 1. -/
def columnBlockFind : List Char → Option (List Char)
  | [] => none
  | c :: rest =>
    if c = '(' then
      match cbBody [] rest with
      | some b => some b
      | none => columnBlockFind rest
    else columnBlockFind rest

/-! ### typeRegex (converter.go:14)

`(?i)^(TINYINT|SMALLINT|...|SET)(?:\s*\(([^)]+)\))?(?:\s+(UNSIGNED))?`
-/

/-- The type-keyword alternation, in source order (order matters: a
backtracking engine takes the first alternative that matches, e.g. `INT`
before `INTEGER`; the rest of the pattern is optional and always
succeeds, so no backtracking into the alternation occurs). -/
def typeKeywordList : List (List Char) :=
  [sd "TINYINT", sd "SMALLINT", sd "MEDIUMINT", sd "INT", sd "INTEGER",
   sd "BIGINT", sd "FLOAT", sd "DOUBLE", sd "DECIMAL", sd "NUMERIC",
   sd "CHAR", sd "VARCHAR", sd "TEXT", sd "TINYTEXT", sd "MEDIUMTEXT",
   sd "LONGTEXT", sd "DATETIME", sd "TIMESTAMP", sd "DATE", sd "TIME",
   sd "BOOLEAN", sd "BOOL", sd "BLOB", sd "TINYBLOB", sd "MEDIUMBLOB",
   sd "LONGBLOB", sd "JSON", sd "ENUM", sd "SET"]

/-- First keyword of `ks` matching case-insensitively at the start of `l`;
returns the matched source text (original case) and the remainder. -/
def findKw : List (List Char) → List Char → Option (List Char × List Char)
  | [], _ => none
  | k :: ks, l =>
    match matchCI k l with
    | some r => some (l.take k.length, r)
    | none => findKw ks l

/-- The optional size group `(?:\s*\(([^)]+)\))?`: maximal space run, `(`,
a non-empty maximal run of non-`)` characters, `)`.  Returns the capture
of group 2 and the remainder, or `none` when the group does not
participate. -/
def typeSize (r : List Char) : Option (List Char × List Char) :=
  let r1 := r.drop (countWhile isRegexSpace r)
  match r1 with
  | '(' :: inner =>
    let n := countWhile (fun c => decide (c ≠ ')')) inner
    if n = 0 then none
    else
      match inner.drop n with
      | ')' :: after => some (inner.take n, after)
      | _ => none
  | _ => none

/-- `typeRegex.FindStringSubmatch` on `l` (the pattern is anchored with
`^`): groups 1 and 2, group 2 as `[]` when absent, exactly as Go reports
a non-participating group as `""`.  Group 3 (`UNSIGNED`) is not used by
the source. -/
def typeRegexFind (l : List Char) : Option (List Char × List Char) :=
  match findKw typeKeywordList l with
  | none => none
  | some (kw, r) =>
    match typeSize r with
    | some (size, _) => some (kw, size)
    | none => some (kw, [])

/-! ### notNullRegex (converter.go:15): `(?i)\bNOT\s+NULL\b` -/

/-- Match `NOT\s+NULL\b` at the current position (the `\b` before `NOT`
is checked by the caller). -/
def notNullAt (l : List Char) : Bool :=
  match matchCI (sd "NOT") l with
  | none => false
  | some r =>
    let n := countWhile isRegexSpace r
    if n = 0 then false
    else
      match matchCI (sd "NULL") (r.drop n) with
      | none => false
      | some r2 =>
        match r2 with
        | [] => true
        | c :: _ => !isWordChar c

/-- Scan for a match anywhere; `prev` is the character before the current
position (`none` at the start of the text), used for the `\b`. -/
def notNullSearch : Option Char → List Char → Bool
  | _, [] => false
  | prev, c :: rest =>
    let boundaryOK := match prev with
      | none => true
      | some p => !isWordChar p
    (boundaryOK && notNullAt (c :: rest)) || notNullSearch (some c) rest

/-- `notNullRegex.MatchString`. -/
def notNullMatch (l : List Char) : Bool := notNullSearch none l

/-! ### Data model (converter.go:18-37) -/

/-- `Config` (converter.go:19-24). -/
structure Config where
  AddJSONTag : Bool
  AddGormTag : Bool
  AddXMLTag : Bool
  AddDBTag : Bool
  deriving DecidableEq

/-- `FieldDef` (converter.go:33-37).  The Go field `Type` is called
`TypeName` here (the spec's name for it) because `Type` is reserved in
Lean. -/
structure FieldDef where
  Name : List Char
  TypeName : List Char
  ColumnName : List Char
  deriving DecidableEq

/-- `StructDef` (converter.go:27-30). -/
structure StructDef where
  Name : List Char
  Fields : List FieldDef
  deriving DecidableEq

/-- The error taxonomy of `ParseSQL`, one constructor per source error
message: `noTableName` = "failed to extract table name from SQL",
`noColumnBlock` = "failed to extract column definitions",
`noClosingParen` = "failed to find closing parenthesis",
`noValidColumns` = "failed to parse columns: no valid columns found". -/
inductive ParseErr where
  | noTableName
  | noColumnBlock
  | noClosingParen
  | noValidColumns
  deriving DecidableEq

/-! ### Case converters (converter.go:298-315, 524-570) -/

/-- Helper of `splitOnChar` (`strings.Split`); `acc` is the current
segment, reversed. -/
def splitOnAux (sep : Char) : List Char → List Char → List (List Char)
  | [], acc => [acc.reverse]
  | c :: rest, acc =>
    if c = sep then acc.reverse :: splitOnAux sep rest []
    else splitOnAux sep rest (c :: acc)

/-- Go `strings.Split s (string sep)` for a one-character separator. -/
def splitOnChar (sep : Char) (l : List Char) : List (List Char) :=
  splitOnAux sep l []

/-- One iteration of the `toPascalCase` loop: empty parts contribute
nothing; otherwise upper-case the first character and lower-case the
rest. -/
def capitalizePart : List Char → List Char
  | [] => []
  | c :: rest => upperChar c :: rest.map lowerChar

/-- `toPascalCase` (converter.go:298-315). -/
def toPascalCase (s : List Char) : List Char :=
  ((splitOnChar '_' s).map capitalizePart).flatten

/-- `isLowerSnakeCase` (converter.go:562-570). -/
def isLowerSnakeCase (s : List Char) : Bool :=
  s.all (fun r => !isUpperAZ r)

/-- The character walk of `toSnakeCase` (converter.go:536-557); `prev` is
`s[i-1]` (`none` when `i = 0`), and `r + 32` is the source's in-branch
lower-casing of an upper-case letter. -/
def snakeAux : Option Char → List Char → List Char
  | _, [] => []
  | prev, c :: rest =>
    if isUpperAZ c then
      let emit := Char.ofNat (c.toNat + 32)
      let nextIsLower := match rest with
        | r :: _ => isLowerAZ r
        | [] => false
      let needUnderscore := match prev with
        | none => false
        | some p => decide (p ≠ '_') && (isLowerAZ p || nextIsLower)
      if needUnderscore then '_' :: emit :: snakeAux (some c) rest
      else emit :: snakeAux (some c) rest
    else c :: snakeAux (some c) rest

/-- `toSnakeCase` (converter.go:524-560). -/
def toSnakeCase (s : List Char) : List Char :=
  if s = [] then s
  else if isLowerSnakeCase s then s
  else snakeAux none s

/-! ### Structural helpers (converter.go:242-296, 324-375) -/

/-- The constraint keyword list of `isConstraint` (converter.go:245-253). -/
def constraintKeywordList : List (List Char) :=
  [sd "PRIMARY KEY", sd "FOREIGN KEY", sd "UNIQUE KEY", sd "KEY ",
   sd "INDEX ", sd "CONSTRAINT", sd "CHECK "]

/-- `isConstraint` (converter.go:242-262). -/
def isConstraint (line : List Char) : Bool :=
  constraintKeywordList.any (fun k => k.isPrefixOf (goToUpper line))

/-- The comma-splitting loop of `splitColumns` (converter.go:264-296);
`parenCount` is an `Int` exactly like the Go `int` counter (it can go
negative on unbalanced input), `cur` is the current segment, reversed. -/
def splitColumnsAux : List Char → Int → List Char → List (List Char)
  | [], _, cur => if cur.length > 0 then [cur.reverse] else []
  | c :: rest, depth, cur =>
    if c = '(' then splitColumnsAux rest (depth + 1) (c :: cur)
    else if c = ')' then splitColumnsAux rest (depth - 1) (c :: cur)
    else if c = ',' then
      if depth = 0 then cur.reverse :: splitColumnsAux rest depth []
      else splitColumnsAux rest depth (c :: cur)
    else splitColumnsAux rest depth (c :: cur)

/-- `splitColumns` (converter.go:264-296). -/
def splitColumns (columnBlock : List Char) : List (List Char) :=
  splitColumnsAux columnBlock 0 []

/-- The scan of `findMatchingParen` (converter.go:324-338) over the text
after the opening parenthesis, carrying the running index and depth. -/
def findMatchingParenAux : List Char → Nat → Nat → Option Nat
  | [], _, _ => none
  | c :: rest, i, count =>
    if c = '(' then findMatchingParenAux rest (i + 1) (count + 1)
    else if c = ')' then
      if count = 1 then some i else findMatchingParenAux rest (i + 1) (count - 1)
    else findMatchingParenAux rest (i + 1) count

/-- `findMatchingParen` (converter.go:324-338). -/
def findMatchingParen (s : List Char) (start : Nat) : Option Nat :=
  findMatchingParenAux (s.drop (start + 1)) (start + 1) 1

/-- `extractColumnName` (converter.go:340-375): returns
`(columnName, restOfLine)`, with `([], [])` for the source's `("", "")`
failure result. -/
def extractColumnName (l : List Char) : List Char × List Char :=
  let line := trimSpace l
  match line with
  | [] => ([], [])
  | c :: rest =>
    if c = bq then
      match goIndexSub rest [bq] with
      | none => ([], [])
      | some e => (rest.take e, trimSpace (rest.drop (e + 1)))
    else if c = '"' then
      match goIndexSub rest ['"'] with
      | none => ([], [])
      | some e => (rest.take e, trimSpace (rest.drop (e + 1)))
    else
      match goFields line with
      | p0 :: p1 :: ps => (p0, goJoinSpace (p1 :: ps))
      | _ => ([], [])

/-! ### removeCommentsAndDefaults (converter.go:377-415)

The source computes `upperLine` from the original `line`, truncates `line`
at the `COMMENT` index, and then slices the truncated `line` with the
`DEFAULT` index found in the untruncated `upperLine`; the slice
`line[idx+7:]` panics when `idx + 7 > len(line)`, which the model reports
as `none`. -/

/-- `removeCommentsAndDefaults` (converter.go:377-415); `none` models the
Go slice-bounds panic. -/
def removeCommentsAndDefaults (line0 : List Char) : Option (List Char) :=
  let upperLine := goToUpper line0
  let line1 := match goIndexSub upperLine (sd "COMMENT") with
    | some idx => line0.take idx
    | none => line0
  match goIndexSub upperLine (sd "DEFAULT") with
  | none => some (trimSpace line1)
  | some idx =>
    if idx + 7 ≤ line1.length then
      let rest := trimSpace (line1.drop (idx + 7))
      match rest with
      | [] => some (trimSpace line1)
      | c :: tl =>
        if c = sq || c = '"' then
          match goIndexSub tl [c] with
          | some endIdx => some (trimSpace (line1.take idx ++ rest.drop (endIdx + 2)))
          | none => some (trimSpace (line1.take idx))
        else
          if (goFields rest).length > 0 then some (trimSpace (line1.take idx))
          else some (trimSpace line1)
    else none

/-! ### Type extraction and mapping (converter.go:164-240) -/

/-- `extractDataType` (converter.go:164-184). -/
def extractDataType (definition : List Char) : List Char :=
  match typeRegexFind definition with
  | none => []
  | some (kw, size) =>
    let dataType := goToUpper kw
    if dataType = sd "TINYINT" && size = sd "1" then sd "TINYINT(1)"
    else dataType

/-- `mapSQLTypeToGo` (converter.go:186-240).  The `switch` cases are
mutually exclusive, so testing the early-returning BLOB group first is
behaviourally identical to the source order. -/
def mapSQLTypeToGo (sqlType0 : List Char) (nullable unsigned : Bool) : List Char :=
  let sqlType := goToUpper sqlType0
  if sqlType = sd "BLOB" || sqlType = sd "TINYBLOB" ||
     sqlType = sd "MEDIUMBLOB" || sqlType = sd "LONGBLOB" then sd "[]byte"
  else
    let baseType :=
      if sqlType = sd "TINYINT(1)" || sqlType = sd "BOOLEAN" || sqlType = sd "BOOL" then sd "bool"
      else if sqlType = sd "TINYINT" then (if unsigned then sd "uint8" else sd "int8")
      else if sqlType = sd "SMALLINT" then (if unsigned then sd "uint16" else sd "int16")
      else if sqlType = sd "MEDIUMINT" || sqlType = sd "INT" || sqlType = sd "INTEGER" then
        (if unsigned then sd "uint32" else sd "int")
      else if sqlType = sd "BIGINT" then (if unsigned then sd "uint64" else sd "int64")
      else if sqlType = sd "FLOAT" || sqlType = sd "DOUBLE" ||
              sqlType = sd "DECIMAL" || sqlType = sd "NUMERIC" then sd "float64"
      else if sqlType = sd "CHAR" || sqlType = sd "VARCHAR" || sqlType = sd "TEXT" ||
              sqlType = sd "TINYTEXT" || sqlType = sd "MEDIUMTEXT" ||
              sqlType = sd "LONGTEXT" || sqlType = sd "JSON" then sd "string"
      else if sqlType = sd "DATETIME" || sqlType = sd "TIMESTAMP" ||
              sqlType = sd "DATE" || sqlType = sd "TIME" then sd "time.Time"
      else sd "string"
    if nullable then '*' :: baseType else baseType

/-! ### Column parsing (converter.go:90-162) -/

/-- `parseColumnDefinition` (converter.go:125-162): `none` models a Go
panic (propagated from `removeCommentsAndDefaults`);
`some (Except.error ())` is the per-clause error that `parseColumns` logs
and skips. -/
def parseColumnDefinition (l : List Char) : Option (Except Unit FieldDef) :=
  let line := trimSpace l
  let p := extractColumnName line
  if p.fst = [] then some (Except.error ())
  else
    let restOfLine := p.snd
    let dataType := extractDataType restOfLine
    if dataType = [] then some (Except.error ())
    else
      match removeCommentsAndDefaults restOfLine with
      | none => none
      | some checkLine =>
        let isNullable := !notNullMatch checkLine
        let isUnsigned := containsStr (goToUpper restOfLine) (sd "UNSIGNED")
        let goType := mapSQLTypeToGo dataType isNullable isUnsigned
        some (Except.ok ⟨toPascalCase p.fst, goType, p.fst⟩)

/-- The clause loop of `parseColumns` (converter.go:97-116). -/
def parseColumnsLoop : List (List Char) → List FieldDef → Option (List FieldDef)
  | [], acc => some acc
  | line0 :: rest, acc =>
    let line := trimSpace line0
    if line = [] then parseColumnsLoop rest acc
    else if isConstraint line then parseColumnsLoop rest acc
    else
      match parseColumnDefinition line with
      | none => none
      | some (Except.error _) => parseColumnsLoop rest acc
      | some (Except.ok field) => parseColumnsLoop rest (acc ++ [field])

/-- `parseColumns` (converter.go:90-123). -/
def parseColumns (columnBlock : List Char) : Option (Except ParseErr (List FieldDef)) :=
  match parseColumnsLoop (splitColumns columnBlock) [] with
  | none => none
  | some fields =>
    if fields.length = 0 then some (Except.error ParseErr.noValidColumns)
    else some (Except.ok fields)

/-- `ParseSQL` (converter.go:39-88); `none` models a Go panic. -/
def ParseSQL (sqlIn : List Char) : Option (Except ParseErr (List StructDef)) :=
  let sql := normalizeWhitespace (trimSpace sqlIn)
  match tableNameFind sql with
  | none => some (Except.error ParseErr.noTableName)
  | some tableName =>
    let structName := toPascalCase tableName
    let blockRes : Except ParseErr (List Char) :=
      match columnBlockFind sql with
      | some body => Except.ok body
      | none =>
        match goIndexSub sql (sd "(") with
        | none => Except.error ParseErr.noColumnBlock
        | some start =>
          match findMatchingParen sql start with
          | none => Except.error ParseErr.noClosingParen
          | some e => Except.ok ((sql.drop (start + 1)).take (e - start - 1))
    match blockRes with
    | Except.error err => some (Except.error err)
    | Except.ok columnBlock =>
      match parseColumns columnBlock with
      | none => none
      | some (Except.error err) => some (Except.error err)
      | some (Except.ok fields) => some (Except.ok [⟨structName, fields⟩])

/-! ### Code generation (converter.go:417-582) -/

/-- `generateStructTags` (converter.go:498-522): tag families in the fixed
source order JSON, DB, GORM, XML. -/
def generateStructTags (columnName : List Char) (config : Config) : List Char :=
  let normalizedName := toSnakeCase columnName
  let tags :=
    (if config.AddJSONTag then [sd "json:\"" ++ normalizedName ++ sd "\""] else []) ++
    (if config.AddDBTag then [sd "db:\"" ++ normalizedName ++ sd "\""] else []) ++
    (if config.AddGormTag then [sd "gorm:\"column:" ++ normalizedName ++ sd "\""] else []) ++
    (if config.AddXMLTag then [sd "xml:\"" ++ normalizedName ++ sd "\""] else [])
  goJoinSpace tags

/-- `calculateAlignment` (converter.go:485-496). -/
def calculateAlignment (fields : List FieldDef) : Nat × Nat :=
  fields.foldl (fun acc f => (max acc.1 f.Name.length, max acc.2 f.TypeName.length)) (0, 0)

/-- One field line of `generateStruct` (converter.go:459-479);
`strings.Repeat` is modelled by `goRepeat` with the `int` count
`maxLen - len + 1`, so a negative count is a panic (`none`). -/
def genField (field : FieldDef) (maxNameLen maxTypeLen : Nat) (config : Config) :
    Option (List Char) :=
  match goRepeat ' ' ((maxNameLen : Int) - (field.Name.length : Int) + 1) with
  | none => none
  | some pad1 =>
    let tags := generateStructTags field.ColumnName config
    if tags = [] then some ('\t' :: field.Name ++ pad1 ++ field.TypeName ++ sd "\n")
    else
      match goRepeat ' ' ((maxTypeLen : Int) - (field.TypeName.length : Int) + 1) with
      | none => none
      | some pad2 =>
        some ('\t' :: field.Name ++ pad1 ++ field.TypeName ++ pad2 ++
          bq :: tags ++ bq :: sd "\n")

/-- The field loop of `generateStruct`. -/
def genFields : List FieldDef → Nat → Nat → Config → Option (List Char)
  | [], _, _, _ => some []
  | f :: rest, mn, mt, cfg =>
    match genField f mn mt cfg with
    | none => none
    | some s =>
      match genFields rest mn mt cfg with
      | none => none
      | some t => some (s ++ t)

/-- `generateStruct` (converter.go:445-483). -/
def generateStruct (d : StructDef) (config : Config) : Option (List Char) :=
  let header := sd "type " ++ d.Name ++ sd " struct \x7b\n"
  if d.Fields.length = 0 then some (header ++ sd "\x7d\n")
  else
    let a := calculateAlignment d.Fields
    match genFields d.Fields a.1 a.2 config with
    | none => none
    | some body => some (header ++ body ++ sd "\x7d\n")

/-- `needsTimeImport` (converter.go:572-582). -/
def needsTimeImport (defs : List StructDef) : Bool :=
  defs.any (fun d => d.Fields.any (fun f => containsStr f.TypeName (sd "time.Time")))

/-- The struct loop of `GenerateGoCode` (converter.go:434-440): a newline
before every struct but the first. -/
def structsJoin (config : Config) : List StructDef → Option (List Char)
  | [] => some []
  | [d] => generateStruct d config
  | d :: rest =>
    match generateStruct d config with
    | none => none
    | some s =>
      match structsJoin config rest with
      | none => none
      | some t => some (s ++ '\n' :: t)

/-- `GenerateGoCode` (converter.go:417-443); `none` models a Go panic
(which in fact never occurs, see the totality theorem). -/
def GenerateGoCode (defs : List StructDef) (config : Config) : Option (List Char) :=
  if defs.length = 0 then some []
  else
    let importPart := if needsTimeImport defs then sd "import \"time\"\n\n" else []
    match structsJoin config defs with
    | none => none
    | some body => some (sd "package main\n\n" ++ importPart ++ body)

end SqlToGo

namespace SqlToGo

/-! ## Supporting lemmas -/

set_option maxRecDepth 8000

theorem toNat_ofNat_valid (n : Nat) (h : n < 55296) : (Char.ofNat n).toNat = n := by
  have hv : n.isValidChar := Or.inl h
  simp [Char.ofNat, hv, Char.ofNatAux, Char.toNat, UInt32.toNat, BitVec.toNat_ofNatLt]

theorem upperChar_idem (c : Char) : upperChar (upperChar c) = upperChar c := by
  by_cases h : 97 ≤ c.toNat ∧ c.toNat ≤ 122
  · have h1 : upperChar c = Char.ofNat (c.toNat - 32) := by simp only [upperChar, if_pos h]
    have ht : (Char.ofNat (c.toNat - 32)).toNat = c.toNat - 32 :=
      toNat_ofNat_valid _ (by omega)
    rw [h1]
    simp only [upperChar, ht]
    rw [if_neg (by omega)]
  · have h1 : upperChar c = c := by simp only [upperChar, if_neg h]
    rw [h1, h1]

theorem lowerChar_idem (c : Char) : lowerChar (lowerChar c) = lowerChar c := by
  by_cases h : 65 ≤ c.toNat ∧ c.toNat ≤ 90
  · have h1 : lowerChar c = Char.ofNat (c.toNat + 32) := by simp only [lowerChar, if_pos h]
    have ht : (Char.ofNat (c.toNat + 32)).toNat = c.toNat + 32 :=
      toNat_ofNat_valid _ (by omega)
    rw [h1]
    simp only [lowerChar, ht]
    rw [if_neg (by omega)]
  · have h1 : lowerChar c = c := by simp only [lowerChar, if_neg h]
    rw [h1, h1]

theorem upperChar_ne_us (c : Char) (h : c ≠ '_') : upperChar c ≠ '_' := by
  unfold upperChar
  split
  · next h2 =>
    intro he
    have h3 := congrArg Char.toNat he
    rw [toNat_ofNat_valid _ (by omega)] at h3
    have h95 : ('_' : Char).toNat = 95 := by decide
    omega
  · exact h

theorem lowerChar_ne_us (c : Char) (h : c ≠ '_') : lowerChar c ≠ '_' := by
  unfold lowerChar
  split
  · next h2 =>
    intro he
    have h3 := congrArg Char.toNat he
    rw [toNat_ofNat_valid _ (by omega)] at h3
    have h95 : ('_' : Char).toNat = 95 := by decide
    omega
  · exact h

theorem splitOnAux_no_sep (sep : Char) (l : List Char) :
    ∀ acc, sep ∉ l → splitOnAux sep l acc = [acc.reverse ++ l] := by
  induction l with
  | nil => intro acc _; simp [splitOnAux]
  | cons c rest ih =>
    intro acc h
    have hc : ¬(c = sep) := by intro e; exact h (by simp [e])
    simp only [splitOnAux, if_neg hc]
    rw [ih (c :: acc) (by intro hm; exact h (by simp [hm]))]
    simp

theorem toPascalCase_no_us (x : List Char) (h : '_' ∉ x) : toPascalCase x = capitalizePart x := by
  unfold toPascalCase splitOnChar
  rw [splitOnAux_no_sep '_' x [] h]
  simp

theorem capitalizePart_no_us (p : List Char) (h : '_' ∉ p) : '_' ∉ capitalizePart p := by
  cases p with
  | nil => simp [capitalizePart]
  | cons c rest =>
    intro hm
    simp only [capitalizePart, List.mem_cons] at hm
    rcases hm with hm | hm
    · exact upperChar_ne_us c (by intro e; exact h (by simp [e])) hm.symm
    · rw [List.mem_map] at hm
      obtain ⟨a, ha, hea⟩ := hm
      exact lowerChar_ne_us a (fun e => h (List.mem_cons_of_mem c (e ▸ ha))) hea

theorem capitalizePart_idem (p : List Char) : capitalizePart (capitalizePart p) = capitalizePart p := by
  cases p with
  | nil => rfl
  | cons c rest =>
    simp only [capitalizePart, List.map_map]
    rw [upperChar_idem]
    exact congrArg _ (List.map_congr_left (fun a _ => lowerChar_idem a))

/-! ## Claims -/

/-- C1: the claim says `Parse` is total and in particular that the
comment/default stripping step of a clause such as
`notes TEXT COMMENT 'a DEFAULT b'` completes without accessing past the
end of the already-truncated tail.  The code disagrees:
`removeCommentsAndDefaults` finds the `DEFAULT` index inside the comment
text of the pre-truncation upper-cased copy and slices the
COMMENT-truncated line with it, reading past its end (a Go slice-bounds
panic, modelled as `none`), so `ParseSQL` panics on this input instead of
returning a record or a taxonomy error. -/
theorem c1_comment_default_panic :
    removeCommentsAndDefaults (sd "TEXT COMMENT " ++ [sq] ++ sd "a DEFAULT b" ++ [sq]) = none ∧
    ParseSQL (sd "CREATE TABLE t (notes TEXT COMMENT " ++ [sq] ++ sd "a DEFAULT b" ++ [sq] ++ sd ")") =
      none := by
  constructor
  · decide
  · decide

/-- C2: the claim says that for an unquoted `DEFAULT` value the text
tested for `NOT NULL` is the tail with the `DEFAULT` keyword and exactly
one following word removed, so `x INT DEFAULT 0 NOT NULL` is seen as
non-nullable.  The code disagrees (contradicting its own inline comment
"remove DEFAULT and first word"): it truncates the tail at `DEFAULT`,
the `NOT NULL` after the default value is discarded, and the column is
mapped to the nullable pointer type `*int`. -/
theorem c2_default_strip_drops_not_null :
    removeCommentsAndDefaults (sd "INT DEFAULT 0 NOT NULL") = some (sd "INT") ∧
    notNullMatch (sd "INT") = false ∧
    parseColumnDefinition (sd "x INT DEFAULT 0 NOT NULL") =
      some (Except.ok ⟨sd "X", sd "*int", sd "x"⟩) := by
  refine ⟨by decide, by decide, by decide⟩

/-- C3 counterexample: the claim says a column clause whose type token is
outside the fixed vocabulary (e.g. `SERIAL`) is still accepted with the
text-string fallback type and is not dropped.  In fact `ParseSQL` on
`CREATE TABLE t (id SERIAL, x INT)` returns a single record with only
the one field `x` — the `id SERIAL` clause produced no field at all. -/
theorem c3_counterexample :
    ParseSQL (sd "CREATE TABLE t (id SERIAL, x INT)") =
      some (Except.ok [⟨sd "T", [⟨sd "X", sd "*int", sd "x"⟩]⟩]) := by decide

/-- C3 amended: a clause whose type token is outside the fixed vocabulary
fails type extraction and is dropped as a soft per-clause failure
(parsing continues with the remaining clauses); the text-string fallback
of the type mapper applies only to vocabulary tokens that lack a specific
mapping case, such as `ENUM`. -/
theorem c3_unknown_type_clause_dropped :
    parseColumnDefinition (sd "id SERIAL") = some (Except.error ()) ∧
    parseColumnDefinition (sd "e ENUM") = some (Except.ok ⟨sd "E", sd "*string", sd "e"⟩) ∧
    ParseSQL (sd "CREATE TABLE t2 (id SERIAL, x INT, y TEXT)") =
      some (Except.ok [⟨sd "T2", [⟨sd "X", sd "*int", sd "x"⟩, ⟨sd "Y", sd "*string", sd "y"⟩]⟩]) := by
  refine ⟨by decide, by decide, by decide⟩

/-- C4: the end-to-end scenario.  Parsing the four-column `users` table
with all tag flags off yields exactly one record named `Users` with the
four fields `Id:int`, `Name:string`, `Email:*string`,
`CreatedAt:time.Time` in order, and the generated text contains the
`import "time"` line. -/
theorem c4_end_to_end :
    ParseSQL (sd "CREATE TABLE users (id INT NOT NULL, name VARCHAR(255) NOT NULL, email VARCHAR(255), created_at DATETIME NOT NULL)") =
      some (Except.ok [⟨sd "Users",
        [⟨sd "Id", sd "int", sd "id"⟩,
         ⟨sd "Name", sd "string", sd "name"⟩,
         ⟨sd "Email", sd "*string", sd "email"⟩,
         ⟨sd "CreatedAt", sd "time.Time", sd "created_at"⟩]⟩]) ∧
    GenerateGoCode
      [⟨sd "Users",
        [⟨sd "Id", sd "int", sd "id"⟩,
         ⟨sd "Name", sd "string", sd "name"⟩,
         ⟨sd "Email", sd "*string", sd "email"⟩,
         ⟨sd "CreatedAt", sd "time.Time", sd "created_at"⟩]⟩]
      ⟨false, false, false, false⟩ =
      some (sd "package main\n\nimport \"time\"\n\ntype Users struct \x7b\n\tId        int\n\tName      string\n\tEmail     *string\n\tCreatedAt time.Time\n\x7d\n") ∧
    containsStr
      (sd "package main\n\nimport \"time\"\n\ntype Users struct \x7b\n\tId        int\n\tName      string\n\tEmail     *string\n\tCreatedAt time.Time\n\x7d\n")
      (sd "import \"time\"\n") = true := by
  refine ⟨by decide, by decide, by decide⟩

/-- C5 counterexample: the claim states idempotence of the snake-to-Pascal
converter for every string, but it fails on `"a_b"`:
`toPascalCase "a_b" = "AB"` while `toPascalCase "AB" = "Ab"`. -/
theorem c5_counterexample :
    ¬ toPascalCase (toPascalCase (sd "a_b")) = toPascalCase (sd "a_b") := by decide

/-- C5 amended: `toPascalCase "user_id" = "UserId"`,
`toPascalCase "a_b_c_d" = "ABCD"`, and the converter is idempotent on
every input containing no underscore (in particular on already-Pascal
input); inputs with underscores, such as `"a_b"`, are not fixed points. -/
theorem c5_pascal_laws :
    toPascalCase (sd "user_id") = sd "UserId" ∧
    toPascalCase (sd "a_b_c_d") = sd "ABCD" ∧
    ∀ x : List Char, '_' ∉ x → toPascalCase (toPascalCase x) = toPascalCase x := by
  refine ⟨by decide, by decide, ?_⟩
  intro x hx
  rw [toPascalCase_no_us x hx,
    toPascalCase_no_us _ (capitalizePart_no_us x hx)]
  exact capitalizePart_idem x

theorem c5_pascal_laws_witness :
    toPascalCase (toPascalCase (sd "Abc")) = toPascalCase (sd "Abc") :=
  c5_pascal_laws.2.2 (sd "Abc") (by decide)

/-- C10: quote characters around the table name are never checked for
pairing: on `CREATE TABLE `⁠users (id INT)` (unclosed backtick) the
table-name pattern still matches, capturing the bare identifier `users`,
and `ParseSQL` succeeds. -/
theorem c10_unpaired_quote_accepted :
    tableNameFind (normalizeWhitespace (trimSpace (sd "CREATE TABLE " ++ [bq] ++ sd "users (id INT)"))) =
      some (sd "users") ∧
    ParseSQL (sd "CREATE TABLE " ++ [bq] ++ sd "users (id INT)") =
      some (Except.ok [⟨sd "Users", [⟨sd "Id", sd "*int", sd "id"⟩]⟩]) := by
  refine ⟨by decide, by decide⟩

end SqlToGo

namespace SqlToGo

/-! ## Lemmas for the snake-case converter -/

theorem snakeAux_not_upper :
    ∀ (l : List Char) (prev : Option Char) (c : Char),
      c ∈ snakeAux prev l → isUpperAZ c = false := by
  intro l
  induction l with
  | nil => intro prev c hc; simp [snakeAux] at hc
  | cons a rest ih =>
    intro prev c hc
    simp only [snakeAux] at hc
    split at hc
    · next ha =>
      have ha2 : 65 ≤ a.toNat ∧ a.toNat ≤ 90 := by
        simpa [isUpperAZ] using ha
      have hemit : isUpperAZ (Char.ofNat (a.toNat + 32)) = false := by
        simp only [isUpperAZ, toNat_ofNat_valid _ (by omega : a.toNat + 32 < 55296)]
        simp only [decide_eq_false_iff_not]
        omega
      split at hc
      · rcases List.mem_cons.mp hc with h1 | h1
        · subst h1; decide
        · rcases List.mem_cons.mp h1 with h2 | h2
          · subst h2; exact hemit
          · exact ih (some a) c h2
      · rcases List.mem_cons.mp hc with h1 | h1
        · subst h1; exact hemit
        · exact ih (some a) c h1
    · next ha =>
      rcases List.mem_cons.mp hc with h1 | h1
      · subst h1
        exact Bool.eq_false_iff.mpr ha
      · exact ih (some a) c h1

theorem isLowerSnakeCase_snakeAux (l : List Char) :
    isLowerSnakeCase (snakeAux none l) = true := by
  unfold isLowerSnakeCase
  rw [List.all_eq_true]
  intro c hc
  rw [Bool.not_eq_true']
  exact snakeAux_not_upper l none c hc

/-- C6: the any-case-to-snake converter is idempotent for every input,
and `toSnakeCase "UserID" = "user_id"`. -/
theorem c6_snake_laws :
    (∀ x : List Char, toSnakeCase (toSnakeCase x) = toSnakeCase x) ∧
    toSnakeCase (sd "UserID") = sd "user_id" := by
  constructor
  · intro x
    by_cases h0 : x = []
    · subst h0; rfl
    · by_cases h1 : isLowerSnakeCase x = true
      · have hx : toSnakeCase x = x := by simp [toSnakeCase, h0, h1]
        rw [hx, hx]
      · have hx : toSnakeCase x = snakeAux none x := by simp [toSnakeCase, h0, h1]
        rw [hx]
        by_cases hy0 : snakeAux none x = []
        · rw [hy0]; rfl
        · simp [toSnakeCase, hy0, isLowerSnakeCase_snakeAux x]
  · decide

/-! ## Lemmas for generator totality -/

theorem calcFold_ge_init (fields : List FieldDef) : ∀ (a b : Nat),
    a ≤ (fields.foldl (fun acc f => (max acc.1 f.Name.length, max acc.2 f.TypeName.length)) (a, b)).1 ∧
    b ≤ (fields.foldl (fun acc f => (max acc.1 f.Name.length, max acc.2 f.TypeName.length)) (a, b)).2 := by
  induction fields with
  | nil => intro a b; exact ⟨Nat.le_refl a, Nat.le_refl b⟩
  | cons g rest ih =>
    intro a b
    simp only [List.foldl_cons]
    constructor
    · exact le_trans (Nat.le_max_left a g.Name.length) (ih (max a g.Name.length) (max b g.TypeName.length)).1
    · exact le_trans (Nat.le_max_left b g.TypeName.length) (ih (max a g.Name.length) (max b g.TypeName.length)).2

theorem calcFold_ge_mem (fields : List FieldDef) : ∀ (a b : Nat) (f : FieldDef), f ∈ fields →
    f.Name.length ≤ (fields.foldl (fun acc f => (max acc.1 f.Name.length, max acc.2 f.TypeName.length)) (a, b)).1 ∧
    f.TypeName.length ≤ (fields.foldl (fun acc f => (max acc.1 f.Name.length, max acc.2 f.TypeName.length)) (a, b)).2 := by
  induction fields with
  | nil => intro a b f hf; exact absurd hf (List.not_mem_nil f)
  | cons g rest ih =>
    intro a b f hf
    simp only [List.foldl_cons]
    rcases List.mem_cons.mp hf with h1 | h1
    · subst h1
      constructor
      · exact le_trans (Nat.le_max_right a f.Name.length)
          (calcFold_ge_init rest (max a f.Name.length) (max b f.TypeName.length)).1
      · exact le_trans (Nat.le_max_right b f.TypeName.length)
          (calcFold_ge_init rest (max a f.Name.length) (max b f.TypeName.length)).2
    · exact ih (max a g.Name.length) (max b g.TypeName.length) f h1

theorem calculateAlignment_ge (fields : List FieldDef) (f : FieldDef) (hf : f ∈ fields) :
    f.Name.length ≤ (calculateAlignment fields).1 ∧
    f.TypeName.length ≤ (calculateAlignment fields).2 :=
  calcFold_ge_mem fields 0 0 f hf

theorem genField_isSome (f : FieldDef) (mn mt : Nat) (cfg : Config)
    (h1 : f.Name.length ≤ mn) (h2 : f.TypeName.length ≤ mt) :
    (genField f mn mt cfg).isSome = true := by
  have e1 : ¬((mn : Int) - (f.Name.length : Int) + 1 < 0) := by omega
  have e2 : ¬((mt : Int) - (f.TypeName.length : Int) + 1 < 0) := by omega
  by_cases ht : generateStructTags f.ColumnName cfg = []
  · simp [genField, goRepeat, e1, ht]
  · simp [genField, goRepeat, e1, e2, ht]

theorem genFields_isSome : ∀ (fs : List FieldDef) (mn mt : Nat) (cfg : Config),
    (∀ f ∈ fs, f.Name.length ≤ mn ∧ f.TypeName.length ≤ mt) →
    (genFields fs mn mt cfg).isSome = true := by
  intro fs
  induction fs with
  | nil => intro mn mt cfg _; simp [genFields]
  | cons f rest ih =>
    intro mn mt cfg h
    have hf := h f (List.mem_cons_self f rest)
    rcases Option.isSome_iff_exists.mp (genField_isSome f mn mt cfg hf.1 hf.2) with ⟨s, hs⟩
    rcases Option.isSome_iff_exists.mp
      (ih mn mt cfg (fun g hg => h g (List.mem_cons_of_mem f hg))) with ⟨t, htr⟩
    simp [genFields, hs, htr]

theorem generateStruct_isSome (d : StructDef) (cfg : Config) :
    (generateStruct d cfg).isSome = true := by
  unfold generateStruct
  by_cases h0 : d.Fields.length = 0
  · simp [h0]
  · have hb := genFields_isSome d.Fields (calculateAlignment d.Fields).1
      (calculateAlignment d.Fields).2 cfg
      (fun f hf => calculateAlignment_ge d.Fields f hf)
    rcases Option.isSome_iff_exists.mp hb with ⟨body, hbody⟩
    simp [h0, hbody]

theorem structsJoin_isSome (cfg : Config) : ∀ defs : List StructDef,
    (structsJoin cfg defs).isSome = true
  | [] => by simp [structsJoin]
  | [d] => by
    have := generateStruct_isSome d cfg
    simpa [structsJoin] using this
  | d :: e :: rest => by
    rcases Option.isSome_iff_exists.mp (generateStruct_isSome d cfg) with ⟨s, hs⟩
    rcases Option.isSome_iff_exists.mp (structsJoin_isSome cfg (e :: rest)) with ⟨t, htr⟩
    simp [structsJoin, hs, htr]

/-- C7: the generator is total — it panics for no record list and
configuration — and the two degenerate cases produce the specified
output: an empty record list yields empty text, and a record with zero
fields still yields a well-formed empty-bodied type declaration. -/
theorem c7_generate_total :
    (∀ (defs : List StructDef) (config : Config), (GenerateGoCode defs config).isSome = true) ∧
    (∀ config : Config, GenerateGoCode [] config = some []) ∧
    (∀ (name : List Char) (config : Config),
      generateStruct ⟨name, []⟩ config =
        some (sd "type " ++ name ++ sd " struct \x7b\n" ++ sd "\x7d\n")) := by
  refine ⟨?_, ?_, ?_⟩
  · intro defs config
    unfold GenerateGoCode
    by_cases h0 : defs.length = 0
    · simp [h0]
    · rcases Option.isSome_iff_exists.mp (structsJoin_isSome config defs) with ⟨body, hb⟩
      simp [h0, hb]
  · intro config; rfl
  · intro name config
    simp [generateStruct]

end SqlToGo

namespace SqlToGo

/-! ## Lemmas for the table-name scanner -/

theorem bind_some_elim {α β : Type} (o : Option α) (f : α → Option β) (r : β)
    (h : o.bind f = some r) : ∃ a, o = some a ∧ f a = some r := by
  cases o with
  | none => cases h
  | some a => exact ⟨a, rfl, h⟩

theorem matchCI_suffix : ∀ (pat l r : List Char), matchCI pat l = some r → r <:+ l := by
  intro pat
  induction pat with
  | nil =>
    intro l r h
    obtain rfl := Option.some.inj h
    exact List.suffix_refl _
  | cons p ps ih =>
    intro l r h
    cases l with
    | nil => cases h
    | cons c cs =>
      simp only [matchCI] at h
      split at h
      · exact (ih cs r h).trans (List.suffix_cons c cs)
      · cases h

theorem wsPlus_suffix (l r : List Char) (h : wsPlus l = some r) : r <:+ l := by
  simp only [wsPlus] at h
  split at h
  · cases h
  · injection h with h2
    subst h2
    exact List.drop_suffix _ l

theorem matchIne_suffix (l r : List Char) (h : matchIne l = some r) : r <:+ l := by
  unfold matchIne at h
  obtain ⟨a, ha, h⟩ := bind_some_elim _ _ _ h
  obtain ⟨b, hb, h⟩ := bind_some_elim _ _ _ h
  obtain ⟨c, hc, h⟩ := bind_some_elim _ _ _ h
  obtain ⟨d, hd, h⟩ := bind_some_elim _ _ _ h
  obtain ⟨e, he, h⟩ := bind_some_elim _ _ _ h
  exact ((((((wsPlus_suffix _ _ h).trans (matchCI_suffix _ _ _ he)).trans
    (wsPlus_suffix _ _ hd)).trans (matchCI_suffix _ _ _ hc)).trans
    (wsPlus_suffix _ _ hb)).trans (matchCI_suffix _ _ _ ha))

theorem tnQuoteSkip_suffix (r : List Char) : tnQuoteSkip r <:+ r := by
  cases r with
  | nil => exact List.suffix_refl _
  | cons c rest =>
    simp only [tnQuoteSkip]
    split
    · exact List.suffix_cons c rest
    · exact List.suffix_refl _

theorem tnTail_paren (l1 r : List Char) (h : tnTail l1 = some r) : '(' ∈ l1 := by
  simp only [tnTail] at h
  split at h
  · cases h
  · split at h
    · next heq =>
      have h0 : '(' ∈ (tnQuoteSkip (l1.drop (countWhile isWordChar l1))).drop
          (countWhile isRegexSpace (tnQuoteSkip (l1.drop (countWhile isWordChar l1)))) := by
        rw [heq]
        exact List.mem_cons_self _ _
      have h1 : '(' ∈ tnQuoteSkip (l1.drop (countWhile isWordChar l1)) :=
        (List.drop_suffix _ _).mem h0
      exact (List.drop_suffix _ l1).mem ((tnQuoteSkip_suffix _).mem h1)
    · cases h

theorem tnName_paren (l r : List Char) (h : tnName l = some r) : '(' ∈ l := by
  cases l with
  | nil => exact tnTail_paren [] r h
  | cons c rest =>
    simp only [tnName] at h
    split at h
    · exact List.mem_cons_of_mem c (tnTail_paren rest r h)
    · exact tnTail_paren (c :: rest) r h

theorem matchTableNameAt_paren (l r : List Char) (h : matchTableNameAt l = some r) :
    '(' ∈ l := by
  unfold matchTableNameAt at h
  obtain ⟨a, ha, h⟩ := bind_some_elim _ _ _ h
  obtain ⟨b, hb, h⟩ := bind_some_elim _ _ _ h
  obtain ⟨c, hc, h⟩ := bind_some_elim _ _ _ h
  obtain ⟨d, hd, h⟩ := bind_some_elim _ _ _ h
  have hd_sub : d <:+ l :=
    ((((wsPlus_suffix _ _ hd).trans (matchCI_suffix _ _ _ hc)).trans
      (wsPlus_suffix _ _ hb)).trans (matchCI_suffix _ _ _ ha))
  cases hie : matchIne d with
  | none =>
    simp only [hie] at h
    exact hd_sub.mem (tnName_paren _ _ h)
  | some e =>
    simp only [hie] at h
    cases hte : tnName e with
    | none =>
      simp only [hte] at h
      exact hd_sub.mem (tnName_paren _ _ h)
    | some ident =>
      exact hd_sub.mem ((matchIne_suffix _ _ hie).mem (tnName_paren _ _ hte))

theorem tableNameFind_paren : ∀ (l r : List Char), tableNameFind l = some r → '(' ∈ l := by
  intro l
  induction l with
  | nil => intro r h; cases h
  | cons c rest ih =>
    intro r h
    simp only [tableNameFind] at h
    cases hm : matchTableNameAt (c :: rest) with
    | some i => exact matchTableNameAt_paren _ _ hm
    | none =>
      rw [hm] at h
      exact List.mem_cons_of_mem c (ih r h)

theorem normalizeWSAux_mem : ∀ (l : List Char) (b : Bool) (c : Char),
    c ∈ normalizeWSAux b l → c = ' ' ∨ c ∈ l := by
  intro l
  induction l with
  | nil => intro b c hc; simp [normalizeWSAux] at hc
  | cons a rest ih =>
    intro b c hc
    simp only [normalizeWSAux] at hc
    split at hc
    · split at hc
      · rcases ih true c hc with h1 | h1
        · exact Or.inl h1
        · exact Or.inr (List.mem_cons_of_mem a h1)
      · rcases List.mem_cons.mp hc with h1 | h1
        · exact Or.inl h1
        · rcases ih true c h1 with h2 | h2
          · exact Or.inl h2
          · exact Or.inr (List.mem_cons_of_mem a h2)
    · rcases List.mem_cons.mp hc with h1 | h1
      · exact Or.inr (h1 ▸ List.mem_cons_self a rest)
      · rcases ih false c h1 with h2 | h2
        · exact Or.inl h2
        · exact Or.inr (List.mem_cons_of_mem a h2)

theorem trimSpace_mem (s : List Char) (c : Char) (h : c ∈ trimSpace s) : c ∈ s := by
  unfold trimSpace at h
  rw [List.mem_reverse] at h
  have h1 := (List.dropWhile_sublist isGoSpace (l := (s.dropWhile isGoSpace).reverse)).mem h
  rw [List.mem_reverse] at h1
  exact (List.dropWhile_sublist isGoSpace (l := s)).mem h1

/-- C8 counterexample: on `CREATE TABLE users` the claim expects a
successful table-name extraction and the NoColumnBlock error; in fact
the table-name pattern itself fails (it requires an opening parenthesis
after the name) and `ParseSQL` returns the NoTableName error. -/
theorem c8_counterexample :
    tableNameFind (normalizeWhitespace (trimSpace (sd "CREATE TABLE users"))) = none ∧
    ParseSQL (sd "CREATE TABLE users") ≠ some (Except.error ParseErr.noColumnBlock) := by
  refine ⟨by decide, by decide⟩

/-- C8 amended: the table-name pattern requires the opening parenthesis
of the column block, so any input with no `(` at all — in particular
`CREATE TABLE` followed by a bare identifier — fails table-name
extraction itself and `ParseSQL` reports NoTableName, not
NoColumnBlock. -/
theorem c8_no_paren_noTableName (sqlIn : List Char) (h : '(' ∉ sqlIn) :
    ParseSQL sqlIn = some (Except.error ParseErr.noTableName) := by
  have hfind : tableNameFind (normalizeWhitespace (trimSpace sqlIn)) = none := by
    cases hf : tableNameFind (normalizeWhitespace (trimSpace sqlIn)) with
    | none => rfl
    | some r =>
      have hp := tableNameFind_paren _ _ hf
      rcases normalizeWSAux_mem (trimSpace sqlIn) false '(' hp with he | hm
      · exact absurd he (by decide)
      · exact absurd (trimSpace_mem _ _ hm) h
  simp only [ParseSQL, hfind]

theorem c8_no_paren_noTableName_witness :
    ParseSQL (sd "CREATE TABLE users") = some (Except.error ParseErr.noTableName) :=
  c8_no_paren_noTableName (sd "CREATE TABLE users") (by decide)

end SqlToGo

namespace SqlToGo

/-! ## Lemmas for the field-name invariant -/

theorem parseColumnDefinition_ok (l : List Char) (fd : FieldDef)
    (h : parseColumnDefinition l = some (Except.ok fd)) :
    fd.ColumnName = (extractColumnName (trimSpace l)).fst ∧
    fd.Name = toPascalCase fd.ColumnName := by
  simp only [parseColumnDefinition] at h
  split at h
  · simp at h
  · split at h
    · simp at h
    · split at h
      · cases h
      · obtain rfl := (Except.ok.inj (Option.some.inj h))
        exact ⟨rfl, rfl⟩

theorem parseColumnsLoop_mem :
    ∀ (lines : List (List Char)) (acc fields : List FieldDef),
      parseColumnsLoop lines acc = some fields →
      ∀ f ∈ fields, f ∈ acc ∨ ∃ clause, parseColumnDefinition clause = some (Except.ok f) := by
  intro lines
  induction lines with
  | nil =>
    intro acc fields h f hf
    simp only [parseColumnsLoop] at h
    obtain rfl := Option.some.inj h
    exact Or.inl hf
  | cons line0 rest ih =>
    intro acc fields h f hf
    simp only [parseColumnsLoop] at h
    split at h
    · exact ih acc fields h f hf
    · split at h
      · exact ih acc fields h f hf
      · split at h
        · cases h
        · exact ih acc fields h f hf
        · next field heq =>
          rcases ih (acc ++ [field]) fields h f hf with hin | hex
          · rcases List.mem_append.mp hin with h1 | h1
            · exact Or.inl h1
            · obtain rfl := List.mem_singleton.mp h1
              exact Or.inr ⟨trimSpace line0, heq⟩
          · exact Or.inr hex

/-- C9: for every field of every record of a successful parse, the field
arises from some clause via `parseColumnDefinition`, its
`ColumnName` (the spec's SourceColumnName) is exactly what
`extractColumnName` yields for that clause — the identifier verbatim,
stripped only of surrounding quotes — and its `Name` is derived from it
by `toPascalCase`. -/
theorem c9_field_invariant (sqlIn : List Char) (defs : List StructDef)
    (h : ParseSQL sqlIn = some (Except.ok defs)) :
    ∀ d ∈ defs, ∀ f ∈ d.Fields,
      ∃ clause, parseColumnDefinition clause = some (Except.ok f) ∧
        f.ColumnName = (extractColumnName (trimSpace clause)).fst ∧
        f.Name = toPascalCase f.ColumnName := by
  intro d hd f hf
  simp only [ParseSQL] at h
  split at h
  · simp at h
  · split at h
    · simp at h
    · next columnBlock heq1 =>
      split at h
      · cases h
      · simp at h
      · next fields heq2 =>
        obtain rfl := (Except.ok.inj (Option.some.inj h))
        obtain rfl := List.mem_singleton.mp hd
        simp only at hf
        simp only [parseColumns] at heq2
        split at heq2
        · cases heq2
        · next fields0 heq3 =>
          split at heq2
          · simp at heq2
          · obtain rfl := (Except.ok.inj (Option.some.inj heq2))
            rcases parseColumnsLoop_mem _ [] fields0 heq3 f hf with hin | hex
            · exact absurd hin (List.not_mem_nil f)
            · obtain ⟨clause, hc⟩ := hex
              exact ⟨clause, hc, (parseColumnDefinition_ok clause f hc).1,
                (parseColumnDefinition_ok clause f hc).2⟩

theorem c9_field_invariant_witness :
    ∃ clause,
      parseColumnDefinition clause =
        some (Except.ok ⟨sd "ColOne", sd "*string", sd "col_one"⟩) ∧
      (⟨sd "ColOne", sd "*string", sd "col_one"⟩ : FieldDef).ColumnName =
        (extractColumnName (trimSpace clause)).fst ∧
      (⟨sd "ColOne", sd "*string", sd "col_one"⟩ : FieldDef).Name =
        toPascalCase (⟨sd "ColOne", sd "*string", sd "col_one"⟩ : FieldDef).ColumnName :=
  c9_field_invariant (sd "CREATE TABLE s (col_one TEXT)")
    [⟨sd "S", [⟨sd "ColOne", sd "*string", sd "col_one"⟩]⟩] (by decide)
    ⟨sd "S", [⟨sd "ColOne", sd "*string", sd "col_one"⟩]⟩ (by simp)
    ⟨sd "ColOne", sd "*string", sd "col_one"⟩ (by simp)

end SqlToGo
